import Mathlib

/-!
# Verification of the keion-etherscan client core

A shallow embedding of the core of the `keion-etherscan` Rust crate:
the error taxonomy and address/hash validation (`src/error.rs`), the
response-envelope unwrapping (`src/client.rs`), the pagination query
serializer (`src/types.rs`), the multi-address endpoints
(`src/endpoints/accounts.rs`, `src/endpoints/contracts.rs`) and the
domain models (`src/models`).

Modelling conventions:
* Rust `String`/`&str` become Lean `String`; `.len()` is UTF-8 byte
  length, embedded by `rustLen` (sum of per-character UTF-8 widths).
* Machine integers (`u16`, `u32`, `u64`) become `Nat`; no operation in
  the verified fragment can overflow them, and `toString` on `Nat`
  renders decimal exactly as Rust's `to_string` does.
* Fallible Rust functions returning `Result<T, EtherscanError>` become
  `Except EtherscanError T`.
* `async` network methods are embedded as functions from the transport's
  response, or, for the endpoint methods, to the request they would
  issue: returning `Except.error` before the request value is built
  models failing without any network call.
* serde-JSON deserialization is embedded as a syntactic parse into a
  `Json` tree followed by a shape decoder `Json → Option α`;
  `serde_json::from_str::<X>` succeeds exactly when both steps do.
-/

/-! ## Characters and strings: the Rust primitives used by the source -/

/-- UTF-8 width of one character, as in Rust's `char::len_utf8`. -/
def charUtf8Size (c : Char) : Nat :=
  if c.toNat < 0x80 then 1
  else if c.toNat < 0x800 then 2
  else if c.toNat < 0x10000 then 3
  else 4

/-- Rust `str::len`: the UTF-8 byte length of the string. -/
def rustLen (s : String) : Nat :=
  (s.data.map charUtf8Size).sum

/-- Rust `char::is_ascii_hexdigit`: `0-9`, `a-f` or `A-F`. -/
def isAsciiHexDigit (c : Char) : Bool :=
  (48 ≤ c.toNat && c.toNat ≤ 57) ||
  (97 ≤ c.toNat && c.toNat ≤ 102) ||
  (65 ≤ c.toNat && c.toNat ≤ 70)

/-- ASCII lowercasing of one character (`'A'..'Z'` shifted by 32).
This is the fragment of Rust's Unicode `char::to_lowercase` relevant to
the source: every string these paths lowercase is pure ASCII. -/
def charLower (c : Char) : Char :=
  if 65 ≤ c.toNat ∧ c.toNat ≤ 90 then Char.ofNat (c.toNat + 32) else c

/-- Rust `str::to_lowercase`, character by character (ASCII fragment). -/
def rustToLowercase (s : String) : String :=
  ⟨s.data.map charLower⟩

/-- Rust `str::starts_with("0x")`. The byte-prefix comparison coincides
with comparing the first two characters because `"0x"` is ASCII. -/
def rustStartsWith0x (s : String) : Bool :=
  match s.data with
  | c0 :: c1 :: _ => c0 == '0' && c1 == 'x'
  | _ => false

deriving instance DecidableEq for Except

/-! ## `src/error.rs`: the error taxonomy -/

/-- `EtherscanError` (src/error.rs:8-68). Constructor-for-variant
renaming of the Rust enum; `u16`/`u64` payloads become `Nat`. -/
inductive EtherscanError where
  | missingApiKey
  | invalidUrl (msg : String)
  | httpClient (msg : String)
  | request (msg : String)
  | http (status : Nat) (message : String)
  | api (message : String) (result : Option String)
  | response (msg : String)
  | parse (msg : String)
  | invalidAddress (addr : String)
  | invalidTxHash (hash : String)
  | invalidBlock (block : String)
  | rateLimit (retryAfter : Option Nat) (message : String)
  | timeout (msg : String)
  | invalidParams (msg : String)
  | unsupportedNetwork (network feature : String)
  | internal (msg : String)
  deriving Repr, DecidableEq

/-- `validation::validate_address` (src/error.rs:234-245).
The source slices `address[2..]` bytewise; that slice is only taken
after `starts_with("0x")` held, where it equals dropping the first two
characters, as modelled here. -/
def validate_address (address : String) : Except EtherscanError Unit :=
  if !rustStartsWith0x address || rustLen address != 42 then
    Except.error (EtherscanError.invalidAddress address)
  else if !(address.data.drop 2).all isAsciiHexDigit then
    Except.error (EtherscanError.invalidAddress address)
  else
    Except.ok ()

/-- `validation::validate_tx_hash` (src/error.rs:248-258): as
`validate_address` with total length 66. -/
def validate_tx_hash (hash : String) : Except EtherscanError Unit :=
  if !rustStartsWith0x hash || rustLen hash != 66 then
    Except.error (EtherscanError.invalidTxHash hash)
  else if !(hash.data.drop 2).all isAsciiHexDigit then
    Except.error (EtherscanError.invalidTxHash hash)
  else
    Except.ok ()

/-- `validation::normalize_address` (src/error.rs:266-269): validate,
then store the lowercased input. -/
def normalize_address (address : String) : Except EtherscanError String :=
  match validate_address address with
  | Except.error e => Except.error e
  | Except.ok () => Except.ok (rustToLowercase address)

/-- `EtherscanError::is_retryable`.

Modelled from the spec: the body at src/error.rs:105-111 is not
well-formed Rust (its `matches!` or-pattern binds `status` in only one
alternative, and the guard places the patterns
`EtherscanError::RateLimit { .. }` and `EtherscanError::Timeout(_)` in
expression position), so the source function has no defined behavior.
This definition follows §7 of the spec — network/rate-limit/timeout
errors and HTTP errors with status ≥ 500 are retryable, everything else
is not — which is also exactly what the crate's own unit tests
(src/tests/test_error.rs:34-45) assert. -/
def EtherscanError.is_retryable : EtherscanError → Bool
  | EtherscanError.request _ => true
  | EtherscanError.http status _ => 500 ≤ status
  | EtherscanError.rateLimit _ _ => true
  | EtherscanError.timeout _ => true
  | _ => false

/-! ## JSON values and serde-style decoders -/

/-- A parsed JSON value. Numbers are restricted to integers, which is
all the decoders defined here consume. -/
inductive Json where
  | null
  | boolean (b : Bool)
  | number (n : Int)
  | str (s : String)
  | arr (elems : List Json)
  | obj (fields : List (String × Json))

/-- The shape-decoding half of `serde_json::from_str::<α>`. -/
abbrev JsonDecoder (α : Type) := Json → Option α

/-- First value bound to `key` in a JSON object's field list. serde's
derived deserializers read the fields in order; well-formed responses
bind each key once. -/
def jsonLookup (fields : List (String × Json)) (key : String) : Option Json :=
  match fields with
  | [] => none
  | (k, v) :: rest => if k = key then some v else jsonLookup rest key

/-- serde `Deserialize` for `String`: accepts exactly JSON strings. -/
def decodeString : JsonDecoder String
  | Json.str s => some s
  | _ => none

/-- serde `Deserialize` for `i64`: accepts exactly JSON (integer) numbers. -/
def decodeInt : JsonDecoder Int
  | Json.number n => some n
  | _ => none

/-- serde `Deserialize` for `Vec<α>`: a JSON array whose every element
decodes as `α`. -/
def decodeList {α : Type} (d : JsonDecoder α) : JsonDecoder (List α)
  | Json.arr elems => elems.mapM d
  | _ => none

/-- serde `Deserialize` for `HashMap<String, String>`: a JSON object
whose every value is a string, here kept as an association list in
field order. -/
def decodeStringMap : JsonDecoder (List (String × String))
  | Json.obj fields => fields.mapM (fun kv => (decodeString kv.2).map (fun v => (kv.1, v)))
  | _ => none

/-! ## `src/types.rs`: envelope, sort order and pagination -/

/-- `EtherscanResponse<T>` (src/types.rs:186-190): the standard
envelope. All three fields are mandatory; `result` is the
endpoint-specific payload type. -/
structure EtherscanResponse (α : Type) where
  status : String
  message : String
  result : α

/-- The derived `Deserialize` for `EtherscanResponse<T>`: a JSON object
with fields `status` and `message` holding strings and a field `result`
that itself deserializes as `T`. Missing fields or a mismatched
`result` fail the whole envelope parse, exactly as serde's derive
does. -/
def decodeEnvelope {α : Type} (d : JsonDecoder α) : JsonDecoder (EtherscanResponse α) :=
  fun j =>
    match j with
    | Json.obj fields =>
      match jsonLookup fields "status" with
      | some js =>
        match decodeString js with
        | some status =>
          match jsonLookup fields "message" with
          | some jm =>
            match decodeString jm with
            | some message =>
              match jsonLookup fields "result" with
              | some jr =>
                match d jr with
                | some result => some ⟨status, message, result⟩
                | none => none
              | none => none
            | none => none
          | none => none
        | none => none
      | none => none
    | _ => none

/-- `Sort` (src/types.rs:81-86), renamed: `Sort` is reserved in Lean. -/
inductive SortOrder where
  | Ascending
  | Descending
  deriving Repr, DecidableEq

/-- `Sort::as_str` (src/types.rs:89-95). -/
def SortOrder.as_str : SortOrder → String
  | SortOrder.Ascending => "asc"
  | SortOrder.Descending => "desc"

/-- `Pagination` (src/types.rs:194-200): all fields optional. -/
structure Pagination where
  page : Option Nat
  offset : Option Nat
  start_block : Option Nat
  end_block : Option Nat
  sort : Option SortOrder
  deriving Repr, DecidableEq

/-- `Pagination::new` (src/types.rs:203-205): `Self::default()`, every
field unset. -/
def Pagination.new : Pagination :=
  ⟨none, none, none, none, none⟩

/-- `Pagination::to_params` (src/types.rs:239-259). The source pushes
onto a `Vec` in this order; each `if let Some` contributes its pair or
nothing. -/
def Pagination.to_params (p : Pagination) : List (String × String) :=
  (match p.page with
   | some page => [("page", toString page)]
   | none => []) ++
  (match p.offset with
   | some offset => [("offset", toString offset)]
   | none => []) ++
  (match p.start_block with
   | some start_block => [("startblock", toString start_block)]
   | none => []) ++
  (match p.end_block with
   | some end_block => [("endblock", toString end_block)]
   | none => []) ++
  (match p.sort with
   | some sort => [("sort", sort.as_str)]
   | none => [])

/-! ## `src/client.rs`: transport checks and envelope unwrapping -/

/-- What the transport hands back: an HTTP status code and the body
text (reqwest's `Response`, after both `status()` and `text()`). -/
structure HttpResponse where
  status : Nat
  body : String

/-- reqwest `StatusCode::is_success`: `200 ≤ code < 300`. -/
def statusIsSuccess (status : Nat) : Bool :=
  200 ≤ status && status < 300

/-- `EtherscanClient::make_request` (src/client.rs:176-208), from the
point where the transport produced a response: a non-2xx status
short-circuits to `EtherscanError::Http` carrying the code and the body
text; a 2xx response is passed through untouched. -/
def make_request (resp : HttpResponse) : Except EtherscanError HttpResponse :=
  if !statusIsSuccess resp.status then
    Except.error (EtherscanError.http resp.status resp.body)
  else
    Except.ok resp

/-- `EtherscanClient::parse_response` (src/client.rs:210-237) on a body
that is syntactically valid JSON: first try the
`EtherscanResponse<T>` envelope; on success dispatch on `status`
(`"1"` / `"0"` / other); if the envelope shape fails, fall back to
deserializing the body directly as `T`, and report
`EtherscanError::Parse` only when that also fails. -/
def parse_response {α : Type} (d : JsonDecoder α) (body : Json) : Except EtherscanError α :=
  match decodeEnvelope d body with
  | some wrapper =>
    if wrapper.status = "1" then Except.ok wrapper.result
    else if wrapper.status = "0" then
      Except.error (EtherscanError.api wrapper.message none)
    else
      Except.error (EtherscanError.response ("Unknown status: " ++ wrapper.status))
  | none =>
    match d body with
    | some t => Except.ok t
    | none => Except.error (EtherscanError.parse "JSON parse error")

/-- `EtherscanClient::get` (src/client.rs:168-174): `make_request`
followed by `parse_response`. `jparse` is the syntactic half of
`serde_json::from_str` (text to JSON tree); a body that is not valid
JSON fails both envelope and fallback parses, hence
`EtherscanError::Parse`. -/
def client_get {α : Type} (d : JsonDecoder α) (jparse : String → Option Json)
    (resp : HttpResponse) : Except EtherscanError α :=
  match make_request resp with
  | Except.error e => Except.error e
  | Except.ok r =>
    match jparse r.body with
    | some j => parse_response d j
    | none => Except.error (EtherscanError.parse "JSON parse error")

/-! ## `src/endpoints`: multi-address endpoints -/

/-- Rust's `Iterator::collect::<Result<Vec<_>, _>>`: apply `f` to each
element in order, stopping at the first error. -/
def collect_results {α ε β : Type} (f : α → Except ε β) : List α → Except ε (List β)
  | [] => Except.ok []
  | a :: as =>
    match f a with
    | Except.error e => Except.error e
    | Except.ok b =>
      match collect_results f as with
      | Except.error e => Except.error e
      | Except.ok bs => Except.ok (b :: bs)

/-- The fixed triple a successful endpoint call hands to
`EtherscanClient::get`: `(module, action)` plus the query parameters.
Returning `Except.error` instead of an `ApiRequest` models failing
before any network request is issued. -/
structure ApiRequest where
  module : String
  action : String
  params : List (String × String)
  deriving Repr, DecidableEq

/-- `Accounts::balance_multi` (src/endpoints/accounts.rs:83-106) up to
the network call: reject empty lists and lists of more than 20
addresses with `InvalidParams`; validate and normalize every address,
failing fast on the first invalid one; comma-join the normalized
addresses into the request. -/
def balance_multi (addresses : List String) : Except EtherscanError ApiRequest :=
  if addresses.isEmpty then
    Except.error (EtherscanError.invalidParams "At least one address required")
  else if addresses.length > 20 then
    Except.error (EtherscanError.invalidParams "Maximum 20 addresses allowed")
  else
    match collect_results normalize_address addresses with
    | Except.error e => Except.error e
    | Except.ok normalized =>
      Except.ok ⟨"account", "balancemulti",
        [("address", String.intercalate "," normalized), ("tag", "latest")]⟩

/-- `Contracts::get_contract_creation` (src/endpoints/contracts.rs:95-124)
up to the network call: same shape as `balance_multi` with a cap of 5
and a single `contractaddresses` parameter. -/
def get_contract_creation (addresses : List String) : Except EtherscanError ApiRequest :=
  if addresses.isEmpty then
    Except.error (EtherscanError.invalidParams "At least one address required")
  else if addresses.length > 5 then
    Except.error (EtherscanError.invalidParams "Maximum 5 addresses allowed")
  else
    match collect_results normalize_address addresses with
    | Except.error e => Except.error e
    | Except.ok normalized =>
      Except.ok ⟨"contract", "getcontractcreation",
        [("contractaddresses", String.intercalate "," normalized)]⟩

/-! ## `src/models`: value types and domain records -/

namespace Models

/-- `StringNumber` (src/models/mod.rs:35): a `u64` carried as a decimal
string on the wire. -/
structure StringNumber where
  val : Nat
  deriving Repr, DecidableEq

/-- `StringNumber::value`. -/
def StringNumber.value (n : StringNumber) : Nat := n.val

/-- `BigNumber` (src/models/mod.rs:80): an arbitrary-size number kept
verbatim as its string. -/
structure BigNumber where
  val : String
  deriving Repr, DecidableEq

/-- `Address` (src/models/mod.rs:112): the model-layer address wrapper
around a plain string. -/
structure Address where
  val : String
  deriving Repr, DecidableEq

/-- `Address::new` (src/models/mod.rs:116-118): store the input
lowercased, with no validation of any kind. -/
def Address.new (address : String) : Address :=
  ⟨rustToLowercase address⟩

/-- `Address::as_str`. -/
def Address.as_str (a : Address) : String := a.val

/-- `TxHash` (src/models/mod.rs:150): the model-layer transaction-hash
wrapper around a plain string. -/
structure TxHash where
  val : String
  deriving Repr, DecidableEq

/-- `TxHash::new` (src/models/mod.rs:154-156): store the input
lowercased, with no validation of any kind. -/
def TxHash.new (hash : String) : TxHash :=
  ⟨rustToLowercase hash⟩

/-- `TxHash::as_str`. -/
def TxHash.as_str (h : TxHash) : String := h.val

/-- `Transaction` (src/models/transaction.rs:6-74). `from` and `to` are
renamed `from_address` and `to_address`: both are reserved in Lean. -/
structure Transaction where
  block_number : StringNumber
  block_hash : String
  transaction_index : StringNumber
  hash : TxHash
  nonce : StringNumber
  from_address : Address
  to_address : Option Address
  value : BigNumber
  gas : StringNumber
  gas_price : BigNumber
  gas_used : StringNumber
  cumulative_gas_used : StringNumber
  input : String
  timestamp : StringNumber
  method_id : Option String
  function_name : Option String
  receipt_status : Option StringNumber
  confirmations : Option StringNumber
  is_error : Option StringNumber
  deriving Repr, DecidableEq

/-- `Transaction::is_successful` (src/models/transaction.rs:120-126):
`receipt_status.map(|s| s.value() == 1).unwrap_or(true)`. -/
def Transaction.is_successful (t : Transaction) : Bool :=
  match t.receipt_status with
  | some status => status.value == 1
  | none => true

/-- `ContractExecutionStatus`.

Modelled from the spec: the `ContractExecutionStatus` model that
src/endpoints/transactions.rs imports from `crate::models` is not among
the model files under src/ (only its callers and unit tests are).
Fields follow the construction sites in
src/tests/test_transactions_endpoints.rs: an `isError` flag (`0` for
success) and an error description. -/
structure ContractExecutionStatus where
  is_error : StringNumber
  error_description : String
  deriving Repr, DecidableEq

/-- Modelled from the spec: the pre-Byzantium execution status is
successful when its `isError` flag is `0`
(src/tests/test_transactions_endpoints.rs:150-183). -/
def ContractExecutionStatus.is_successful (s : ContractExecutionStatus) : Bool :=
  s.is_error.value == 0

/-- `TransactionReceiptStatus`.

Modelled from the spec: like `ContractExecutionStatus`, the model file
is missing from src/; the post-Byzantium receipt carries a single
status field (`1` for success). -/
structure TransactionReceiptStatus where
  status : StringNumber
  deriving Repr, DecidableEq

/-- Modelled from the spec: a receipt is successful when its status
field is `1` (src/tests/test_transactions_endpoints.rs:186-201). -/
def TransactionReceiptStatus.is_successful (s : TransactionReceiptStatus) : Bool :=
  s.status.value == 1

/-- `TransactionStatus`.

Modelled from the spec: the comprehensive record built by
`Transactions::get_comprehensive_status`
(src/endpoints/transactions.rs:122-147) and by
`TransactionStatusBuilder::execute`; both callers start from
`TransactionStatus::new` and fill the two optional sub-statuses. -/
structure TransactionStatus where
  tx_hash : TxHash
  contract_execution : Option ContractExecutionStatus
  receipt_status : Option TransactionReceiptStatus
  deriving Repr, DecidableEq

/-- Modelled from the spec: `TransactionStatus::new` starts with both
sub-lookup results absent (src/tests/test_transactions_endpoints.rs:
211-219). -/
def TransactionStatus.new (hash : TxHash) : TransactionStatus :=
  ⟨hash, none, none⟩

/-- `TransactionStatus::is_successful`.

Modelled from the spec (§4.4): \"The merged record's 'is successful'
accessor prefers the receipt status when present, falling back to
execution status, and returns 'unknown' only when neither is
available.\" The crate's unit tests
(src/tests/test_transactions_endpoints.rs:222-320) assert exactly this
precedence. -/
def TransactionStatus.is_successful (ts : TransactionStatus) : Option Bool :=
  match ts.receipt_status with
  | some receipt => some receipt.is_successful
  | none =>
    match ts.contract_execution with
    | some execution => some execution.is_successful
    | none => none

end Models

/-! ## Helper lemmas: characters and validated strings -/

theorem toNat_ofNat_valid {n : Nat} (h : n < 0xd800) : (Char.ofNat n).toNat = n := by
  have hv : n.isValidChar := Or.inl h
  rw [Char.ofNat, dif_pos hv]
  rfl

theorem charLower_toNat (c : Char) (h : 65 ≤ c.toNat ∧ c.toNat ≤ 90) :
    (charLower c).toNat = c.toNat + 32 := by
  rw [charLower, if_pos h]
  exact toNat_ofNat_valid (by omega)

theorem charLower_eq_self {c : Char} (h : ¬(65 ≤ c.toNat ∧ c.toNat ≤ 90)) : charLower c = c := by
  rw [charLower, if_neg h]

theorem charLower_idem (c : Char) : charLower (charLower c) = charLower c := by
  by_cases hc : 65 ≤ c.toNat ∧ c.toNat ≤ 90
  · exact charLower_eq_self (by have := charLower_toNat c hc; omega)
  · rw [charLower_eq_self hc, charLower_eq_self hc]

theorem hex_size_one {c : Char} (h : isAsciiHexDigit c = true) : charUtf8Size c = 1 := by
  simp only [isAsciiHexDigit, Bool.or_eq_true, Bool.and_eq_true, decide_eq_true_eq] at h
  rw [charUtf8Size, if_pos (by omega)]

theorem charLower_hex {c : Char} (h : isAsciiHexDigit c = true) :
    isAsciiHexDigit (charLower c) = true := by
  simp only [isAsciiHexDigit, Bool.or_eq_true, Bool.and_eq_true, decide_eq_true_eq] at h ⊢
  by_cases hc : 65 ≤ c.toNat ∧ c.toNat ≤ 90
  · rw [charLower_toNat c hc]; omega
  · rw [charLower_eq_self hc]; omega

theorem startsWith0x_iff (s : String) :
    rustStartsWith0x s = true ↔ ∃ rest, s.data = '0' :: 'x' :: rest := by
  rcases hd : s.data with _ | ⟨c0, _ | ⟨c1, rest⟩⟩ <;>
    simp [rustStartsWith0x, hd, and_assoc]

theorem sum_sizes_of_hex : ∀ {l : List Char}, l.all isAsciiHexDigit = true →
    (l.map charUtf8Size).sum = l.length := by
  intro l h
  induction l with
  | nil => simp
  | cons c cs ih =>
    rw [List.all_cons, Bool.and_eq_true] at h
    simp [hex_size_one h.1, ih h.2]
    omega

/-- `validate_address` accepts exactly `"0x"` followed by 40 ASCII hex
characters. -/
theorem validate_address_ok_iff (s : String) :
    validate_address s = Except.ok () ↔
    ∃ t : String, s = "0x" ++ t ∧ t.data.length = 40 ∧ t.data.all isAsciiHexDigit = true := by
  constructor
  · intro h
    rw [validate_address] at h
    by_cases h1 : (!rustStartsWith0x s || rustLen s != 42) = true
    · rw [if_pos h1] at h; exact absurd h (by simp)
    · rw [if_neg h1] at h
      by_cases h2 : (!(s.data.drop 2).all isAsciiHexDigit) = true
      · rw [if_pos h2] at h; exact absurd h (by simp)
      · simp only [Bool.or_eq_true, Bool.not_eq_true', bne_iff_ne, not_or, Bool.not_eq_false,
          ne_eq, not_not] at h1 h2
        obtain ⟨rest, hrest⟩ := (startsWith0x_iff s).mp h1.1
        have hhex : rest.all isAsciiHexDigit = true := by
          have := h2
          rwa [hrest] at this
        refine ⟨⟨rest⟩, ?_, ?_, hhex⟩
        · apply String.ext
          simp [hrest]
        · have hlen := h1.2
          rw [rustLen, hrest] at hlen
          simp only [List.map_cons, List.sum_cons] at hlen
          have h0 : charUtf8Size '0' = 1 := by decide
          have hx : charUtf8Size 'x' = 1 := by decide
          rw [h0, hx, sum_sizes_of_hex hhex] at hlen
          show rest.length = 40
          omega
  · rintro ⟨t, rfl, hlen, hhex⟩
    have hdata : ("0x" ++ t).data = '0' :: 'x' :: t.data := rfl
    have h1 : rustStartsWith0x ("0x" ++ t) = true :=
      (startsWith0x_iff _).mpr ⟨t.data, hdata⟩
    have hlen42 : rustLen ("0x" ++ t) = 42 := by
      rw [rustLen, hdata]
      simp only [List.map_cons, List.sum_cons]
      have h0 : charUtf8Size '0' = 1 := by decide
      have hx : charUtf8Size 'x' = 1 := by decide
      rw [h0, hx, sum_sizes_of_hex hhex, hlen]
    have hdrop : (("0x" ++ t).data.drop 2) = t.data := by rw [hdata]; rfl
    rw [validate_address, if_neg (by simp [h1, hlen42]), if_neg (by simp [hdrop, hhex])]

/-- `validate_address` either succeeds or fails with `InvalidAddress`
carrying the offending input; no other outcome exists. -/
theorem validate_address_cases (s : String) :
    validate_address s = Except.ok () ∨
    validate_address s = Except.error (EtherscanError.invalidAddress s) := by
  rw [validate_address]
  split
  · exact Or.inr rfl
  · split
    · exact Or.inr rfl
    · exact Or.inl rfl

theorem rustToLowercase_idem (s : String) :
    rustToLowercase (rustToLowercase s) = rustToLowercase s := by
  apply String.ext
  show (s.data.map charLower).map charLower = s.data.map charLower
  rw [List.map_map]
  exact List.map_congr_left fun c _ => charLower_idem c

theorem validate_address_toLower {s : String} (h : validate_address s = Except.ok ()) :
    validate_address (rustToLowercase s) = Except.ok () := by
  obtain ⟨t, rfl, hlen, hhex⟩ := (validate_address_ok_iff s).mp h
  have hdata : (rustToLowercase ("0x" ++ t)).data = '0' :: 'x' :: t.data.map charLower := by
    show ('0' :: 'x' :: t.data).map charLower = _
    have h0 : charLower '0' = '0' := by decide
    have hx : charLower 'x' = 'x' := by decide
    simp [h0, hx]
  apply (validate_address_ok_iff _).mpr
  refine ⟨⟨t.data.map charLower⟩, String.ext hdata, by simp [hlen], ?_⟩
  show (t.data.map charLower).all isAsciiHexDigit = true
  rw [List.all_map]
  rw [List.all_eq_true] at hhex ⊢
  exact fun c hc => charLower_hex (hhex c hc)

theorem normalize_address_of_valid {s : String} (h : validate_address s = Except.ok ()) :
    normalize_address s = Except.ok (rustToLowercase s) := by
  rw [normalize_address, h]

theorem normalize_address_of_invalid {s : String}
    (h : validate_address s = Except.error (EtherscanError.invalidAddress s)) :
    normalize_address s = Except.error (EtherscanError.invalidAddress s) := by
  rw [normalize_address, h]

/-! ## Helper lemmas: fail-fast collection over `Except` -/

theorem collect_results_ok {α ε β : Type} (f : α → Except ε β) (g : α → β) :
    ∀ (l : List α), (∀ a ∈ l, f a = Except.ok (g a)) →
      collect_results f l = Except.ok (l.map g) := by
  intro l h
  induction l with
  | nil => rfl
  | cons a as ih =>
    have ha : f a = Except.ok (g a) := h a (List.mem_cons_self a as)
    have has := ih fun b hb => h b (List.mem_cons_of_mem a hb)
    simp [collect_results, ha, has]

theorem collect_results_error {α ε β : Type} (f : α → Except ε β) :
    ∀ (l : List α), (∃ a ∈ l, ∃ e, f a = Except.error e) →
      ∃ b ∈ l, ∃ e, f b = Except.error e ∧ collect_results f l = Except.error e := by
  intro l h
  induction l with
  | nil => simp at h
  | cons a as ih =>
    rcases ha : f a with e | v
    · exact ⟨a, List.mem_cons_self a as, e, ha, by simp [collect_results, ha]⟩
    · obtain ⟨b, hb, e, he⟩ := h
      rcases List.mem_cons.mp hb with rfl | hb'
      · rw [ha] at he; exact absurd he (by simp)
      · obtain ⟨b', hb'', e', he', hmap⟩ := ih ⟨b, hb', e, he⟩
        exact ⟨b', List.mem_cons_of_mem a hb'', e', he',
          by simp [collect_results, ha, hmap]⟩

theorem normalize_address_error_form {s : String} {e : EtherscanError}
    (h : normalize_address s = Except.error e) : e = EtherscanError.invalidAddress s := by
  rcases validate_address_cases s with hv | hv
  · rw [normalize_address, hv] at h
    exact absurd h (by simp)
  · rw [normalize_address, hv] at h
    injection h with h
    exact h.symm

/-! ## Claim theorems -/

/-- C2 (confirmed): a response with a non-2xx HTTP status makes the
client return `EtherscanError::Http` carrying the numeric status code
and the body text, for every body and every expected payload type —
the body is never inspected; envelope parsing is reached exactly for
2xx responses. -/
theorem http_error_short_circuit :
    (∀ (α : Type) (d : JsonDecoder α) (jparse : String → Option Json) (resp : HttpResponse),
      resp.status < 200 ∨ 300 ≤ resp.status →
      client_get d jparse resp = Except.error (EtherscanError.http resp.status resp.body)) ∧
    (∀ (α : Type) (d : JsonDecoder α) (jparse : String → Option Json) (resp : HttpResponse),
      200 ≤ resp.status ∧ resp.status < 300 →
      client_get d jparse resp =
        (match jparse resp.body with
         | some j => parse_response d j
         | none => Except.error (EtherscanError.parse "JSON parse error"))) := by
  constructor
  · intro α d jparse resp h
    have hb : statusIsSuccess resp.status = false := by
      rw [statusIsSuccess]
      rcases h with h | h <;> simp <;> omega
    rw [client_get, make_request, if_pos (by rw [hb]; rfl)]
  · intro α d jparse resp h
    have hb : statusIsSuccess resp.status = true := by
      rw [statusIsSuccess]
      simp only [Bool.and_eq_true, decide_eq_true_eq]
      omega
    rw [client_get, make_request, if_neg (by rw [hb]; simp)]

/-- C2 witness: a 404 with body `"not found"` yields exactly
`Http { status: 404, message: "not found" }`, and a 200 whose body
fails to parse yields a parse error. -/
theorem http_error_short_circuit_witness :
    client_get decodeString (fun _ => none) ⟨404, "not found"⟩ =
      Except.error (EtherscanError.http 404 "not found") ∧
    client_get decodeString (fun _ => none) ⟨200, "not json"⟩ =
      Except.error (EtherscanError.parse "JSON parse error") :=
  ⟨http_error_short_circuit.1 String decodeString (fun _ => none) ⟨404, "not found"⟩
      (by right; decide),
   http_error_short_circuit.2 String decodeString (fun _ => none) ⟨200, "not json"⟩
      (by constructor <;> decide)⟩

/-- C7 (confirmed, spec-modelled): the comprehensive status record's
`is_successful` prefers the receipt status whenever present (whatever
the execution status holds), falls back to the execution status, and
returns `none` (\"unknown\"), not an error, when neither is
available. -/
theorem transaction_status_precedence :
    (∀ (ts : Models.TransactionStatus) (r : Models.TransactionReceiptStatus),
      ts.receipt_status = some r → ts.is_successful = some r.is_successful) ∧
    (∀ (ts : Models.TransactionStatus) (e : Models.ContractExecutionStatus),
      ts.receipt_status = none → ts.contract_execution = some e →
      ts.is_successful = some e.is_successful) ∧
    (∀ ts : Models.TransactionStatus,
      ts.receipt_status = none → ts.contract_execution = none →
      ts.is_successful = none) := by
  refine ⟨fun ts r hr => ?_, fun ts e hr he => ?_, fun ts hr he => ?_⟩
  · rw [Models.TransactionStatus.is_successful, hr]
  · rw [Models.TransactionStatus.is_successful, hr, he]
  · rw [Models.TransactionStatus.is_successful, hr, he]

/-- C7 witness: a successful receipt beats a failed execution status
(merged result `some true`); execution-only data falls through to the
execution status; no data at all gives `none`. -/
theorem transaction_status_precedence_witness :
    (Models.TransactionStatus.mk (Models.TxHash.new "0xaa")
      (some ⟨⟨1⟩, "Revert"⟩) (some ⟨⟨1⟩⟩)).is_successful = some true ∧
    (Models.TransactionStatus.mk (Models.TxHash.new "0xaa")
      (some ⟨⟨1⟩, "Out of gas"⟩) none).is_successful = some false ∧
    (Models.TransactionStatus.new (Models.TxHash.new "0xaa")).is_successful = none :=
  ⟨transaction_status_precedence.1 _ ⟨⟨1⟩⟩ rfl,
   transaction_status_precedence.2.1 _ ⟨⟨1⟩, "Out of gas"⟩ rfl rfl,
   transaction_status_precedence.2.2 _ rfl rfl⟩

/-- C8 (code_bug): the classification the claim describes, proved over
the spec-modelled `is_retryable` (the source body at
src/error.rs:105-111 is not well-formed Rust; the crate's unit tests
assert exactly this behavior): an HTTP error is retryable exactly when
its status is at least 500, and request, rate-limit and timeout errors
are always retryable. -/
theorem is_retryable_classification :
    (∀ (status : Nat) (m : String),
      (EtherscanError.http status m).is_retryable = decide (500 ≤ status)) ∧
    (∀ m : String, (EtherscanError.request m).is_retryable = true) ∧
    (∀ (ra : Option Nat) (m : String),
      (EtherscanError.rateLimit ra m).is_retryable = true) ∧
    (∀ m : String, (EtherscanError.timeout m).is_retryable = true) :=
  ⟨fun _ _ => rfl, fun _ => rfl, fun _ _ => rfl, fun _ => rfl⟩

/-- C9 (confirmed): when the upstream response omits
`txreceipt_status`, `Transaction::is_successful` defaults to `true`. -/
theorem transaction_default_successful (t : Models.Transaction)
    (h : t.receipt_status = none) : t.is_successful = true := by
  rw [Models.Transaction.is_successful, h]

/-- C9 witness: a concrete transaction with no receipt status is
reported successful. -/
theorem transaction_default_successful_witness :
    (Models.Transaction.mk ⟨100⟩ "0xbb" ⟨0⟩ (Models.TxHash.new "0xabc") ⟨1⟩
      (Models.Address.new "0xdef") none ⟨"1000"⟩ ⟨21000⟩ ⟨"5"⟩ ⟨21000⟩ ⟨21000⟩
      "0x" ⟨1700000000⟩ none none none none none).is_successful = true :=
  transaction_default_successful _ rfl

/-- C10 (confirmed): the model-layer constructors `Address::new` and
`TxHash::new` perform no validation: for every string the construction
succeeds and stores the lowercased input verbatim — including strings
the validation layer rejects. -/
theorem model_constructors_no_validation :
    (∀ s : String, Models.Address.new s = ⟨rustToLowercase s⟩) ∧
    (∀ s : String, Models.TxHash.new s = ⟨rustToLowercase s⟩) ∧
    (Models.Address.new "not-an-address").val = "not-an-address" ∧
    validate_address "not-an-address" =
      Except.error (EtherscanError.invalidAddress "not-an-address") ∧
    (Models.TxHash.new "0xNOTAHASH").val = "0xnotahash" ∧
    validate_tx_hash "0xNOTAHASH" =
      Except.error (EtherscanError.invalidTxHash "0xNOTAHASH") :=
  ⟨fun _ => rfl, fun _ => rfl, by decide, by decide, by decide, by decide⟩

/-- The standard failure envelope the upstream service sends: status
`"0"`, message `"NOTOK"` and a plain explanation string in `result`. -/
def failureEnvelopeBody : Json :=
  Json.obj [("status", Json.str "0"), ("message", Json.str "NOTOK"),
    ("result", Json.str "Max rate limit reached")]

/-- C1 counterexample: on the standard failure envelope, with the
caller expecting a list (as almost every endpoint does),
`parse_response` reports a parse error, not the domain API error the
claim requires — and with a string-map payload type the fallback even
succeeds silently, returning the envelope itself as data. -/
theorem parse_response_status0_counterexample :
    parse_response (decodeList decodeInt) failureEnvelopeBody =
      Except.error (EtherscanError.parse "JSON parse error") ∧
    parse_response (decodeList decodeInt) failureEnvelopeBody ≠
      Except.error (EtherscanError.api "NOTOK" none) ∧
    parse_response (decodeList decodeInt) failureEnvelopeBody ≠
      Except.error (EtherscanError.api "NOTOK" (some "Max rate limit reached")) ∧
    parse_response decodeStringMap failureEnvelopeBody =
      Except.ok [("status", "0"), ("message", "NOTOK"),
        ("result", "Max rate limit reached")] :=
  ⟨rfl, by decide, by decide, rfl⟩

/-- C1 (corrected): for every response body that deserializes as the
full `EtherscanResponse<T>` envelope — which requires the `result`
field to be present and itself deserialize as `T` — a `"0"` status
yields the domain API error carrying the envelope's message, never a
success and never a parse error. (When `result` is absent or not a
`T`, the envelope parse fails and the body falls through to the bare-`T`
fallback instead.) -/
theorem parse_response_status0_amended {α : Type} (d : JsonDecoder α) (body : Json)
    (env : EtherscanResponse α) (hdec : decodeEnvelope d body = some env)
    (h0 : env.status = "0") :
    parse_response d body = Except.error (EtherscanError.api env.message none) := by
  rw [parse_response, hdec]
  dsimp only
  rw [if_neg (by rw [h0]; decide), if_pos h0]

/-- C1 witness: a failure envelope whose `result` is a string, read
with `T = String`, produces exactly `Api { message: "NOTOK" }`. -/
theorem parse_response_status0_amended_witness :
    parse_response decodeString
      (Json.obj [("status", Json.str "0"), ("message", Json.str "NOTOK"),
        ("result", Json.str "boom")]) =
      Except.error (EtherscanError.api "NOTOK" none) :=
  parse_response_status0_amended decodeString _ ⟨"0", "NOTOK", "boom"⟩ rfl rfl

/-- C3 counterexample: `"0X742D35CC6634C0532925A3B8D19389C4D5E1E4A6"`
has 42 characters, starts with `0x` when compared case-insensitively,
and its remaining 40 characters are all hex digits — so the claim says
validation succeeds — yet `validate_address` rejects it, because the
source compares the prefix case-sensitively with `starts_with("0x")`. -/
theorem validate_address_uppercase_prefix_counterexample :
    ("0X742D35CC6634C0532925A3B8D19389C4D5E1E4A6" : String).data.length = 42 ∧
    (("0X742D35CC6634C0532925A3B8D19389C4D5E1E4A6" : String).data.take 2).map charLower
      = ['0', 'x'] ∧
    (("0X742D35CC6634C0532925A3B8D19389C4D5E1E4A6" : String).data.drop 2).all
      isAsciiHexDigit = true ∧
    validate_address "0X742D35CC6634C0532925A3B8D19389C4D5E1E4A6" =
      Except.error
        (EtherscanError.invalidAddress "0X742D35CC6634C0532925A3B8D19389C4D5E1E4A6") := by
  refine ⟨by decide, by decide, by decide, by decide⟩

/-- C3 (corrected): `validate_address` succeeds exactly on a
case-sensitive `"0x"` prefix followed by 40 ASCII hex characters; every
other string — in particular the boundary inputs of length 41 and 43,
a missing prefix, the empty string, `"0x"` alone, and any non-hex
character among the last 40 — fails with `InvalidAddress` carrying the
input, and `normalize_address` stores the lowercased input on
success. -/
theorem validate_address_spec :
    (∀ s : String, validate_address s = Except.ok () ↔
      ∃ t : String, s = "0x" ++ t ∧ t.data.length = 40 ∧
        t.data.all isAsciiHexDigit = true) ∧
    (∀ s : String, validate_address s = Except.ok () ∨
      validate_address s = Except.error (EtherscanError.invalidAddress s)) ∧
    (∀ s : String, validate_address s = Except.ok () →
      normalize_address s = Except.ok (rustToLowercase s)) ∧
    validate_address "0x742d35cc6634c0532925a3b8d19389c4d5e1e4a" =
      Except.error (EtherscanError.invalidAddress
        "0x742d35cc6634c0532925a3b8d19389c4d5e1e4a") ∧
    validate_address "0x742d35cc6634c0532925a3b8d19389c4d5e1e4a67" =
      Except.error (EtherscanError.invalidAddress
        "0x742d35cc6634c0532925a3b8d19389c4d5e1e4a67") ∧
    validate_address "742d35cc6634c0532925a3b8d19389c4d5e1e4a6ab" =
      Except.error (EtherscanError.invalidAddress
        "742d35cc6634c0532925a3b8d19389c4d5e1e4a6ab") ∧
    validate_address "" = Except.error (EtherscanError.invalidAddress "") ∧
    validate_address "0x" = Except.error (EtherscanError.invalidAddress "0x") ∧
    validate_address "0x742d35cc6634c0532925a3b8g19389c4d5e1e4a6" =
      Except.error (EtherscanError.invalidAddress
        "0x742d35cc6634c0532925a3b8g19389c4d5e1e4a6") :=
  ⟨validate_address_ok_iff, validate_address_cases,
   fun _ h => normalize_address_of_valid h,
   by decide, by decide, by decide, by decide, by decide, by decide⟩

/-- C3 witness: the spec's concrete scenario — the mixed-case address
normalizes to its lowercase form. -/
theorem validate_address_spec_witness :
    normalize_address "0x742D35Cc6634C0532925a3b8D19389c4D5e1e4a6" =
      Except.ok "0x742d35cc6634c0532925a3b8d19389c4d5e1e4a6" := by
  have h := validate_address_spec.2.2.1 "0x742D35Cc6634C0532925a3b8D19389c4D5e1e4a6"
    (by decide)
  rw [h]
  decide

/-- C4 (confirmed): address normalization is idempotent — normalizing
the result of a successful normalization returns it unchanged — and
the canonical string of a valid input is exactly its lowercasing. -/
theorem normalize_address_idempotent :
    (∀ s t : String, normalize_address s = Except.ok t →
      normalize_address t = Except.ok t) ∧
    (∀ s : String, validate_address s = Except.ok () →
      normalize_address s = Except.ok (rustToLowercase s)) := by
  constructor
  · intro s t h
    rcases validate_address_cases s with hv | hv
    · rw [normalize_address, hv] at h
      injection h with h
      subst h
      rw [normalize_address_of_valid (validate_address_toLower hv), rustToLowercase_idem]
    · rw [normalize_address, hv] at h
      exact absurd h (by simp)
  · exact fun _ h => normalize_address_of_valid h

/-- C4 witness: normalizing the already-normalized concrete address is
a no-op, and the canonical form of the mixed-case input is its
lowercase. -/
theorem normalize_address_idempotent_witness :
    normalize_address "0x742d35cc6634c0532925a3b8d19389c4d5e1e4a6" =
      Except.ok "0x742d35cc6634c0532925a3b8d19389c4d5e1e4a6" ∧
    normalize_address "0x742D35Cc6634C0532925a3b8D19389c4D5e1e4a6" =
      Except.ok (rustToLowercase "0x742D35Cc6634C0532925a3b8D19389c4D5e1e4a6") :=
  ⟨normalize_address_idempotent.1 "0x742D35Cc6634C0532925a3b8D19389c4D5e1e4a6"
      "0x742d35cc6634c0532925a3b8d19389c4d5e1e4a6" (by decide),
   normalize_address_idempotent.2 "0x742D35Cc6634C0532925a3b8D19389c4D5e1e4a6"
      (by decide)⟩

/-- C6 (confirmed): `to_params` emits exactly the fields that were set
and nothing else, always in the canonical order `page, offset,
startblock, endblock, sort`, with numbers rendered in decimal and the
sort rendered as `"asc"`/`"desc"`; the freshly constructed empty
`Pagination` yields the empty list. -/
theorem pagination_to_params_spec :
    Pagination.new.to_params = [] ∧
    (∀ p : Pagination,
      (p.to_params.map Prod.fst).Sublist
        ["page", "offset", "startblock", "endblock", "sort"]) ∧
    (∀ (p : Pagination) (v : String),
      (("page", v) ∈ p.to_params ↔ ∃ n, p.page = some n ∧ v = toString n) ∧
      (("offset", v) ∈ p.to_params ↔ ∃ n, p.offset = some n ∧ v = toString n) ∧
      (("startblock", v) ∈ p.to_params ↔ ∃ n, p.start_block = some n ∧ v = toString n) ∧
      (("endblock", v) ∈ p.to_params ↔ ∃ n, p.end_block = some n ∧ v = toString n) ∧
      (("sort", v) ∈ p.to_params ↔ ∃ o, p.sort = some o ∧ v = o.as_str)) := by
  refine ⟨rfl, fun p => ?_, fun p v => ?_⟩
  · rcases p with ⟨pg, off, sb, eb, so⟩
    rcases pg <;> rcases off <;> rcases sb <;> rcases eb <;> rcases so <;>
      simp [Pagination.to_params] <;> decide
  · rcases p with ⟨pg, off, sb, eb, so⟩
    rcases pg <;> rcases off <;> rcases sb <;> rcases eb <;> rcases so <;>
      simp [Pagination.to_params, Prod.ext_iff, eq_comm]

/-- C5 (confirmed): both multi-address endpoints are fail-fast — an
empty list or a list over the cap (20 for `balance_multi`, 5 for
`get_contract_creation`) is rejected with `InvalidParams`, any invalid
address makes the whole call return its validation error, and in every
failing case no request value is ever built (the model returns the
request only in the `ok` branch); a list of valid addresses within the
cap proceeds with each address normalized and comma-joined. -/
theorem multi_address_endpoints_spec :
    balance_multi [] =
      Except.error (EtherscanError.invalidParams "At least one address required") ∧
    (∀ l : List String, 20 < l.length →
      balance_multi l =
        Except.error (EtherscanError.invalidParams "Maximum 20 addresses allowed")) ∧
    get_contract_creation [] =
      Except.error (EtherscanError.invalidParams "At least one address required") ∧
    (∀ l : List String, 5 < l.length →
      get_contract_creation l =
        Except.error (EtherscanError.invalidParams "Maximum 5 addresses allowed")) ∧
    (∀ l : List String, l ≠ [] → l.length ≤ 20 →
      (∃ a ∈ l, ∃ e, normalize_address a = Except.error e) →
      ∃ b ∈ l, normalize_address b = Except.error (EtherscanError.invalidAddress b) ∧
        balance_multi l = Except.error (EtherscanError.invalidAddress b)) ∧
    (∀ l : List String, l ≠ [] → l.length ≤ 5 →
      (∃ a ∈ l, ∃ e, normalize_address a = Except.error e) →
      ∃ b ∈ l, normalize_address b = Except.error (EtherscanError.invalidAddress b) ∧
        get_contract_creation l = Except.error (EtherscanError.invalidAddress b)) ∧
    (∀ l : List String, l ≠ [] → l.length ≤ 20 →
      (∀ a ∈ l, validate_address a = Except.ok ()) →
      balance_multi l = Except.ok ⟨"account", "balancemulti",
        [("address", String.intercalate "," (l.map rustToLowercase)),
         ("tag", "latest")]⟩) ∧
    (∀ l : List String, l ≠ [] → l.length ≤ 5 →
      (∀ a ∈ l, validate_address a = Except.ok ()) →
      get_contract_creation l = Except.ok ⟨"contract", "getcontractcreation",
        [("contractaddresses", String.intercalate "," (l.map rustToLowercase))]⟩) := by
  have hempty : ∀ l : List String, l ≠ [] → l.isEmpty = false := by
    intro l h
    cases l with
    | nil => exact absurd rfl h
    | cons a as => rfl
  refine ⟨rfl, fun l h => ?_, rfl, fun l h => ?_, fun l h0 hcap hbad => ?_,
    fun l h0 hcap hbad => ?_, fun l h0 hcap hok => ?_, fun l h0 hcap hok => ?_⟩
  · have h0 : l ≠ [] := by intro he; rw [he] at h; simp at h
    rw [balance_multi, if_neg (by rw [hempty l h0]; simp), if_pos h]
  · have h0 : l ≠ [] := by intro he; rw [he] at h; simp at h
    rw [get_contract_creation, if_neg (by rw [hempty l h0]; simp), if_pos h]
  · obtain ⟨b, hb, e, he, hcoll⟩ := collect_results_error normalize_address l hbad
    have hform := normalize_address_error_form he
    subst hform
    exact ⟨b, hb, he, by
      rw [balance_multi, if_neg (by rw [hempty l h0]; simp),
        if_neg (by omega), hcoll]⟩
  · obtain ⟨b, hb, e, he, hcoll⟩ := collect_results_error normalize_address l hbad
    have hform := normalize_address_error_form he
    subst hform
    exact ⟨b, hb, he, by
      rw [get_contract_creation, if_neg (by rw [hempty l h0]; simp),
        if_neg (by omega), hcoll]⟩
  · have hcoll := collect_results_ok normalize_address rustToLowercase l
      (fun a ha => normalize_address_of_valid (hok a ha))
    rw [balance_multi, if_neg (by rw [hempty l h0]; simp),
      if_neg (by omega), hcoll]
  · have hcoll := collect_results_ok normalize_address rustToLowercase l
      (fun a ha => normalize_address_of_valid (hok a ha))
    rw [get_contract_creation, if_neg (by rw [hempty l h0]; simp),
      if_neg (by omega), hcoll]

/-- C5 witness: 21 copies of a valid address are rejected by
`balance_multi` and 6 by `get_contract_creation`; a single malformed
address fails with its own validation error; exactly 20 valid
addresses proceed, normalized and comma-joined. -/
theorem multi_address_endpoints_spec_witness :
    balance_multi
        (List.replicate 21 "0x742d35cc6634c0532925a3b8d19389c4d5e1e4a6") =
      Except.error (EtherscanError.invalidParams "Maximum 20 addresses allowed") ∧
    get_contract_creation
        (List.replicate 6 "0x742d35cc6634c0532925a3b8d19389c4d5e1e4a6") =
      Except.error (EtherscanError.invalidParams "Maximum 5 addresses allowed") ∧
    balance_multi ["nope"] =
      Except.error (EtherscanError.invalidAddress "nope") ∧
    balance_multi
        (List.replicate 20 "0x742D35Cc6634C0532925a3b8D19389c4D5e1e4a6") =
      Except.ok ⟨"account", "balancemulti",
        [("address", String.intercalate ","
            ((List.replicate 20 "0x742D35Cc6634C0532925a3b8D19389c4D5e1e4a6").map
              rustToLowercase)),
         ("tag", "latest")]⟩ := by
  refine ⟨?_, ?_, ?_, ?_⟩
  · exact multi_address_endpoints_spec.2.1 _ (by simp)
  · exact multi_address_endpoints_spec.2.2.2.1 _ (by simp)
  · obtain ⟨b, hb, hbe, hbm⟩ :=
      multi_address_endpoints_spec.2.2.2.2.1 ["nope"] (by simp) (by simp)
        ⟨"nope", by simp, EtherscanError.invalidAddress "nope", by decide⟩
    have hb' : b = "nope" := by simpa using hb
    subst hb'
    exact hbm
  · refine multi_address_endpoints_spec.2.2.2.2.2.2.1 _ (by simp) (by simp) ?_
    intro a ha
    have := List.eq_of_mem_replicate ha
    subst this
    decide
